import Mathlib

/-!
Verification of the Mobile Legends draft-pick assistant.

The repository ships the draft-pick user interface
(`src/web-ui/app/draft/page.tsx`); the Draft Analysis & Recommendation
Engine it calls over HTTP is not part of the checked-in sources, so the
engine (hero store, draft-state validation, team analyzer, enemy-threat
collector and recommendation scoring) is modelled from the specification,
while the UI-side list manipulation helpers (`addHeroToList`,
`addHeroWithLane`, `removeHeroFromList`, `getHeroLane`, the team-entry
encoding) are embedded directly from `page.tsx`.
-/

namespace MLDraft

/-- The five recognized lanes (`page.tsx` line 46, spec §3). -/
def LANES : List String := ["gold", "jungle", "roam", "mid", "exp"]

/-- A hero record: name, roles, lanes it can occupy, damage types, and
the hero names it counters (spec §3, `page.tsx` interface `Hero` plus the
`counters` edge set of spec §4.1/§9). -/
structure Hero where
  name : String
  roles : List String
  lanes : List String
  damage_types : List String
  counters : List String
deriving Repr, DecidableEq

/-- Lower-case a string character by character (JS `toLowerCase`,
used for the spec's case-insensitive name matching, §4.1). -/
def lowerName (s : String) : String :=
  String.mk (s.data.map Char.toLower)

/-- Modelled from the spec: §4.1 `get(name)`, case-insensitive lookup in
the Hero Knowledge Store (the store itself lives in the engine backend,
which is not among the checked-in sources). -/
def get (store : List Hero) (name : String) : Option Hero :=
  store.find? (fun h => lowerName h.name == lowerName name)

/-- Whether a name resolves in the store (spec §4.2 rule 1). -/
def heroExists (store : List Hero) (name : String) : Bool :=
  (get store name).isSome

/-- Modelled from the spec: §4.1 `listCounters(heroName)`: the heroes
recorded as countering `heroName` (derived reverse index of the
`counters` edge set), in store order. -/
def listCounters (store : List Hero) (heroName : String) : List String :=
  (store.filter (fun h => h.counters.contains heroName)).map Hero.name

/-- Raw caller input (spec §6 "Get recommendations" request):
banned and enemy name lists, team as (hero, lane) pairs, user lane. -/
structure DraftInput where
  banned : List String
  enemy : List String
  team : List (String × String)
  user_lane : String
deriving Repr, DecidableEq

/-- A validated draft state (spec §3). -/
structure DraftState where
  banned : List String
  enemy : List String
  team : List (String × String)
  user_lane : String
deriving Repr, DecidableEq

/-- The validation error taxonomy (spec §7). -/
inductive DraftError where
  | HeroNotFound (name : String)
  | InvalidLane (lane : String)
  | DuplicateSelection (name : String)
  | LaneAlreadyTaken (lane : String)
deriving Repr, DecidableEq

/-- All hero names mentioned anywhere in the input (spec §4.2). -/
def allNames (inp : DraftInput) : List String :=
  inp.banned ++ inp.enemy ++ inp.team.map Prod.fst

/-- First element of a list that also occurs later in it,
used to detect duplicate selections and duplicate lanes. -/
def firstDuplicate {α : Type} [DecidableEq α] : List α → Option α
  | [] => none
  | x :: xs => if x ∈ xs then some x else firstDuplicate xs

/-- Modelled from the spec: §4.2 Draft State construction and
validation, applying the four rules in the specified order (the
centralized validator belongs to the engine backend, which is not among
the checked-in sources; the UI performs the analogous ad hoc checks in
`handleTeamInput`/`addHeroToList`). -/
def validate (store : List Hero) (inp : DraftInput) :
    Except DraftError DraftState :=
  match (allNames inp).find? (fun n => !(heroExists store n)) with
  | some n => .error (.HeroNotFound n)
  | none =>
    if inp.user_lane ∈ LANES then
      match firstDuplicate (allNames inp) with
      | some n => .error (.DuplicateSelection n)
      | none =>
        match firstDuplicate (inp.team.map Prod.snd) with
        | some l => .error (.LaneAlreadyTaken l)
        | none => .ok ⟨inp.banned, inp.enemy, inp.team, inp.user_lane⟩
    else .error (.InvalidLane inp.user_lane)

/-- The team analysis record (spec §3, `page.tsx` interface
`TeamAnalysis`); the JSON maps `role_counts`/`lane_counts` are modelled
as association lists, and the nested `lane_validation` object is
flattened into its two fields. -/
structure TeamAnalysis where
  role_counts : List (String × Nat)
  lane_counts : List (String × Nat)
  role_diversity : Nat
  missing_lanes : List String
  damage_balance : String
  jungle_roam_valid : String
  lane_validation_valid : Bool
  lane_validation_missing : List String
deriving Repr, DecidableEq

/-- The hero records of the team members, in team order (spec §4.3). -/
def teamHeroes (store : List Hero) (team : List (String × String)) : List Hero :=
  team.filterMap (fun p => get store p.1)

/-- Count `P` of spec §4.3: team heroes whose damage-type set includes "physical". -/
def physicalCount (store : List Hero) (team : List (String × String)) : Nat :=
  ((teamHeroes store team).filter (fun h => h.damage_types.contains "physical")).length

/-- Count `M` of spec §4.3: team heroes whose damage-type set includes "magic". -/
def magicCount (store : List Hero) (team : List (String × String)) : Nat :=
  ((teamHeroes store team).filter (fun h => h.damage_types.contains "magic")).length

/-- Modelled from the spec: §4.3 `damage_balance` (part of the engine
backend, not among the checked-in sources): balanced iff `P ≥ 1` and
`M ≥ 1`, otherwise "physical_heavy" if `P > M`, else "magic_heavy". -/
def damageBalance (store : List Hero) (team : List (String × String)) : String :=
  if 1 ≤ physicalCount store team ∧ 1 ≤ magicCount store team then "balanced"
  else if magicCount store team < physicalCount store team then "physical_heavy"
  else "magic_heavy"

/-- The hero occupying a lane of the team, if any. -/
def slotHero (store : List Hero) (team : List (String × String))
    (lane : String) : Option Hero :=
  (team.find? (fun p => p.2 == lane)).bind (fun p => get store p.1)

/-- Modelled from the spec: §4.3 `jungle_roam_valid`: "valid" unless
both the jungle and roam slots are filled and neither occupant carries
the role appropriate to its slot. -/
def jungleRoamValid (store : List Hero) (team : List (String × String)) : String :=
  match slotHero store team "jungle", slotHero store team "roam" with
  | some jh, some rh =>
    if !(jh.roles.contains "assassin" || jh.roles.contains "fighter")
       && !(rh.roles.contains "tank" || rh.roles.contains "support")
    then "invalid" else "valid"
  | _, _ => "valid"

/-- The distinct roles represented on the team. -/
def teamRoles (store : List Hero) (team : List (String × String)) : List String :=
  (((teamHeroes store team).map Hero.roles).flatten).dedup

/-- Modelled from the spec: §4.3 `analyze(team, store)`, the pure team
composition analyzer of the engine backend (not among the checked-in
sources). -/
def analyze (store : List Hero) (team : List (String × String)) : TeamAnalysis :=
  let th := teamHeroes store team
  let roles := teamRoles store team
  let missing := LANES.filter (fun l => !(team.any (fun p => p.2 == l)))
  { role_counts := roles.map (fun r => (r, (th.filter (fun h => h.roles.contains r)).length)),
    lane_counts := LANES.map (fun l => (l, if team.any (fun p => p.2 == l) then 1 else 0)),
    role_diversity := roles.length,
    missing_lanes := missing,
    damage_balance := damageBalance store team,
    jungle_roam_valid := jungleRoamValid store team,
    lane_validation_valid := missing.isEmpty,
    lane_validation_missing := missing }

/-- Modelled from the spec: §4.4 Enemy Threat Collector: one
`(enemy, counters)` pair per enemy hero, in enemy-input order. -/
def collectThreats (store : List Hero) (enemy : List String) :
    List (String × List String) :=
  enemy.map (fun e => (e, listCounters store e))

/-- Lookup with default 0 in an association-list counter map. -/
def lookupCount (m : List (String × Nat)) (r : String) : Nat :=
  match m.find? (fun p => p.1 == r) with
  | some p => p.2
  | none => 0

/-- Modelled from the spec: §4.5 rule 1, lane fit (+3.0). -/
def laneFitRule (s : DraftState) (h : Hero) : ℚ × List String :=
  if h.lanes.contains s.user_lane then (3, ["Fits requested lane"])
  else (0, [])

/-- Number of the candidate's roles not already present with positive
count in `role_counts` (spec §4.5 rule 2). -/
def newRoleCount (a : TeamAnalysis) (h : Hero) : Nat :=
  (h.roles.dedup.filter (fun r => lookupCount a.role_counts r == 0)).length

/-- Modelled from the spec: §4.5 rule 2, role diversity gain (+1.5 per
new role). -/
def roleGainRule (a : TeamAnalysis) (h : Hero) : ℚ × List String :=
  let n := newRoleCount a h
  if 0 < n then
    ((3 / 2) * (n : ℚ), ["Adds " ++ toString n ++ " new role(s) to team"])
  else (0, [])

/-- Modelled from the spec: §4.5 rule 3, missing-lane fill (+2.0 once). -/
def missingLaneRule (a : TeamAnalysis) (h : Hero) : ℚ × List String :=
  let fills := h.lanes.filter (fun l => a.missing_lanes.contains l)
  if fills.isEmpty then (0, [])
  else (2, ["Fills missing lane(s): " ++ String.intercalate ", " fills])

/-- Modelled from the spec: §4.5 rule 4, damage-balance correction (+1.5). -/
def damageBalanceRule (a : TeamAnalysis) (h : Hero) : ℚ × List String :=
  if a.damage_balance != "balanced"
     && h.damage_types.contains
          (if a.damage_balance == "physical_heavy" then "magic" else "physical")
  then (3 / 2, ["Improves damage balance"])
  else (0, [])

/-- The enemies whose threat list contains the candidate, in
enemy-input order (spec §4.5 rule 5). -/
def counterHits (threats : List (String × List String)) (h : Hero) : List String :=
  (threats.filter (fun t => t.2.contains h.name)).map Prod.fst

/-- Modelled from the spec: §4.5 rule 5, counter value (+2.5 per enemy
countered, reason "Counters <enemy>" per enemy). -/
def counterRule (threats : List (String × List String)) (h : Hero) :
    ℚ × List String :=
  ((5 / 2) * ((counterHits threats h).length : ℚ),
   (counterHits threats h).map (fun e => "Counters " ++ e))

/-- Modelled from the spec: §4.5 rule 6, jungle/roam correction (+1.0). -/
def jungleRoamRule (s : DraftState) (a : TeamAnalysis) (h : Hero) :
    ℚ × List String :=
  if a.jungle_roam_valid == "invalid"
     && ((s.user_lane == "jungle"
          && (h.roles.contains "assassin" || h.roles.contains "fighter"))
         || (s.user_lane == "roam"
             && (h.roles.contains "tank" || h.roles.contains "support")))
  then (1, ["Resolves jungle/roam synergy gap"])
  else (0, [])

/-- Modelled from the spec: §4.5 additive scoring: total score is the
sum of the six rules, reasons concatenated in rule order. -/
def scoreHero (s : DraftState) (a : TeamAnalysis)
    (threats : List (String × List String)) (h : Hero) : ℚ × List String :=
  let r1 := laneFitRule s h
  let r2 := roleGainRule a h
  let r3 := missingLaneRule a h
  let r4 := damageBalanceRule a h
  let r5 := counterRule threats h
  let r6 := jungleRoamRule s a h
  (r1.1 + r2.1 + r3.1 + r4.1 + r5.1 + r6.1,
   r1.2 ++ r2.2 ++ r3.2 ++ r4.2 ++ r5.2 ++ r6.2)

/-- Modelled from the spec: §4.5 candidate set: every hero in the store
not present in banned, enemy, or any team lane. -/
def candidates (store : List Hero) (s : DraftState) : List Hero :=
  store.filter (fun h =>
    !(s.banned.contains h.name || s.enemy.contains h.name
      || (s.team.map Prod.fst).contains h.name))

/-- A scored recommendation (spec §3, `page.tsx` interface
`Recommendation`). -/
structure Recommendation where
  hero : String
  priority : ℚ
  reasons : List String
deriving Repr, DecidableEq

/-- Character-list lexicographic order, the tie-breaking comparison on
hero names (spec §4.5: "ties broken by ascending hero name"). -/
def lexLe : List Char → List Char → Bool
  | [], _ => true
  | _ :: _, [] => false
  | a :: as, b :: bs => if a = b then lexLe as bs else decide (a < b)

/-- Ascending-name comparison on hero names. -/
def nameLe (a b : String) : Bool := lexLe a.data b.data

/-- The recommendation ordering: higher score first, ties by ascending
hero name (spec §4.5). -/
def recBefore (a b : Recommendation) : Prop :=
  b.priority < a.priority ∨ (a.priority = b.priority ∧ nameLe a.hero b.hero = true)

instance : DecidableRel recBefore := fun a b =>
  inferInstanceAs (Decidable (b.priority < a.priority
    ∨ (a.priority = b.priority ∧ nameLe a.hero b.hero = true)))

instance : IsTotal Recommendation recBefore := ⟨by
  have hlex : ∀ as bs : List Char, lexLe as bs = true ∨ lexLe bs as = true := by
    intro as
    induction as with
    | nil => intro bs; left; rfl
    | cons a as ih =>
      intro bs
      cases bs with
      | nil => right; rfl
      | cons b bs =>
        by_cases hab : a = b
        · subst hab
          rcases ih bs with h | h
          · left; simpa [lexLe] using h
          · right; simpa [lexLe] using h
        · rcases lt_or_gt_of_ne hab with h | h
          · left; simp [lexLe, hab, h]
          · have hba : ¬ b = a := fun hba => hab hba.symm
            right; simp [lexLe, hba, h]
  intro a b
  rcases lt_trichotomy a.priority b.priority with h | h | h
  · exact Or.inr (Or.inl h)
  · rcases hlex a.hero.data b.hero.data with hn | hn
    · exact Or.inl (Or.inr ⟨h, hn⟩)
    · exact Or.inr (Or.inr ⟨h.symm, hn⟩)
  · exact Or.inl (Or.inl h)⟩

instance : IsTrans Recommendation recBefore := ⟨by
  have htr : ∀ as bs cs : List Char,
      lexLe as bs = true → lexLe bs cs = true → lexLe as cs = true := by
    intro as
    induction as with
    | nil => intro bs cs _ _; rfl
    | cons a as ih =>
      intro bs cs h1 h2
      cases bs with
      | nil => simp [lexLe] at h1
      | cons b bs =>
        cases cs with
        | nil => simp [lexLe] at h2
        | cons c cs =>
          by_cases hab : a = b <;> by_cases hbc : b = c
          · subst hab; subst hbc
            simp only [lexLe, if_pos rfl] at h1 h2 ⊢
            exact ih bs cs h1 h2
          · subst hab
            simp only [lexLe, if_neg hbc] at h2 ⊢
            exact h2
          · subst hbc
            simp only [lexLe, if_neg hab] at h1 ⊢
            exact h1
          · simp only [lexLe, if_neg hab, if_neg hbc, decide_eq_true_eq] at h1 h2
            have hac : a < c := lt_trans h1 h2
            simp [lexLe, ne_of_lt hac, hac]
  rintro a b c (h1 | ⟨he1, hn1⟩) (h2 | ⟨he2, hn2⟩)
  · exact Or.inl (lt_trans h2 h1)
  · exact Or.inl (he2 ▸ h1)
  · exact Or.inl (he1.symm ▸ h2)
  · exact Or.inr ⟨he1.trans he2, htr _ _ _ hn1 hn2⟩⟩

/-- Modelled from the spec: §4.5 `recommend`: score every candidate,
sort by descending score with ties broken by ascending name, truncate
to `limit` (the engine backend is not among the checked-in sources). -/
def recommend (store : List Hero) (s : DraftState) (limit : Nat) :
    List Recommendation :=
  let a := analyze store s.team
  let th := collectThreats store s.enemy
  let recs := (candidates store s).map
    (fun h => { hero := h.name, priority := (scoreHero s a th h).1,
                reasons := (scoreHero s a th h).2 : Recommendation })
  (recs.insertionSort recBefore).take limit

/-- The successful draft response payload (spec §6): analysis omitted
when the team is empty, threats omitted when the enemy list is empty. -/
structure DraftOutput where
  recommendations : List Recommendation
  team_analysis : Option TeamAnalysis
  enemy_threats : Option (List (String × List String))
deriving Repr, DecidableEq

/-- Modelled from the spec: the full request pipeline (§2 control
flow): validate, then analyze/collect/recommend; a validation error is
returned with no partial analysis (§7). -/
def processDraft (store : List Hero) (inp : DraftInput) (limit : Nat) :
    Except DraftError DraftOutput :=
  match validate store inp with
  | .error e => .error e
  | .ok st =>
    .ok { recommendations := recommend store st limit,
          team_analysis := if st.team.isEmpty then none
                           else some (analyze store st.team),
          enemy_threats := if st.enemy.isEmpty then none
                           else some (collectThreats store st.enemy) }

/-! The client-side draft page state and its handlers, embedded from
`src/web-ui/app/draft/page.tsx`. Toast messages are collected in a
`messages` list; the hero search box content is `searchQuery`. -/

/-- The three selection lists of the draft page (`page.tsx` line 74). -/
inductive ListType
  | banned
  | enemy
  | team
deriving Repr, DecidableEq

/-- The mutable client state of the draft page (`page.tsx` lines 64-75,
restricted to the fields the handlers touch). -/
structure DraftUIState where
  banned : List String
  enemy : List String
  team : List String
  searchQuery : String
  messages : List String
deriving Repr, DecidableEq

/-- JS `s.startsWith(pre)`. -/
def jsStartsWith (s pre : String) : Bool := pre.data.isPrefixOf s.data

/-- JS `s.endsWith(suf)`. -/
def jsEndsWith (s suf : String) : Bool := suf.data.isSuffixOf s.data

/-- The "hero already in any list" guard shared by the add handlers
(`page.tsx` lines 144, 163, 186). -/
def alreadySelected (st : DraftUIState) (heroName : String) : Bool :=
  st.banned.contains heroName || st.enemy.contains heroName
    || st.team.any (fun h => jsStartsWith h heroName)

/-- Handler `addHeroToList` (`page.tsx` lines 181-201): for the team list it
only shows an instruction toast; for banned/enemy it appends the hero
and clears the search box. -/
def addHeroToList (st : DraftUIState) (heroName : String)
    (listType : ListType) : DraftUIState :=
  if alreadySelected st heroName then
    { st with messages := st.messages ++ ["Hero already selected!"] }
  else
    match listType with
    | .team =>
      { st with messages :=
          st.messages ++ ["Untuk team, ketik: hero lane (contoh: miya gold)"] }
    | .banned =>
      { st with banned := st.banned ++ [heroName],
                messages := st.messages ++ [heroName ++ " added to banned list!"],
                searchQuery := "" }
    | .enemy =>
      { st with enemy := st.enemy ++ [heroName],
                messages := st.messages ++ [heroName ++ " added to enemy list!"],
                searchQuery := "" }

/-- Handler `addHeroWithLane` (`page.tsx` lines 161-179): append the
`hero-lane` entry unless the hero is already selected or the lane is
taken. -/
def addHeroWithLane (st : DraftUIState) (heroName lane : String) : DraftUIState :=
  if alreadySelected st heroName then
    { st with messages := st.messages ++ ["Hero sudah dipilih!"] }
  else if st.team.any (fun h => jsEndsWith h ("-" ++ lane)) then
    { st with messages :=
        st.messages ++ ["Lane " ++ lane ++ " sudah ada! Pilih lane lain."] }
  else
    { st with team := st.team ++ [heroName ++ "-" ++ lane],
              searchQuery := "",
              messages := st.messages ++ [heroName ++ " added to team as " ++ lane ++ "!"] }

/-- Handler `removeHeroFromList` (`page.tsx` lines 203-211): team entries are
removed by `startsWith`, the other lists by exact inequality. -/
def removeHeroFromList (st : DraftUIState) (heroName : String)
    (listType : ListType) : DraftUIState :=
  match listType with
  | .team => { st with team := st.team.filter (fun h => !(jsStartsWith h heroName)) }
  | .banned => { st with banned := st.banned.filter (fun h => h != heroName) }
  | .enemy => { st with enemy := st.enemy.filter (fun h => h != heroName) }

/-- JS `s.split(c)` for a one-character separator `c`: the
`c`-separated fields of the string, in order. -/
def splitOnChar (c : Char) : List Char → List (List Char)
  | [] => [[]]
  | a :: rest =>
    if a = c then [] :: splitOnChar c rest
    else
      match splitOnChar c rest with
      | [] => [[a]]
      | g :: gs => (a :: g) :: gs

/-- Decoder `getHeroLane` (`page.tsx` lines 228-231): the second `'-'`-separated
field when the entry splits into more than one part, else `""`. -/
def getHeroLane (heroWithLane : String) : String :=
  match splitOnChar '-' heroWithLane.data with
  | _ :: p1 :: _ => String.mk p1
  | _ => ""

/-- The hero-name decoding `heroWithLane.split('-')[0]` used when
rendering the team list (`page.tsx` line 417). -/
def getHeroName (heroWithLane : String) : String :=
  match splitOnChar '-' heroWithLane.data with
  | p0 :: _ => String.mk p0
  | [] => ""

/-- The claimed behaviour of `getHeroLane`, stated as written: "the
substring after the first `'-'`" (defined for comparison with the
implemented `getHeroLane`). -/
def claimedLaneAfterFirstDash (s : String) : String :=
  if s.data.contains '-' then
    String.mk ((s.data.dropWhile (fun c => c != '-')).drop 1)
  else ""

/-! Sample data (the three-hero store of the spec's Scenario A/B, §8),
used to instantiate the theorems below on concrete inputs. -/

/-- Scenario hero: marksman, gold lane, physical damage. -/
def layla : Hero := ⟨"layla", ["marksman"], ["gold"], ["physical"], []⟩

/-- Scenario hero: support, roam lane, magic damage. -/
def estes : Hero := ⟨"estes", ["support"], ["roam"], ["magic"], []⟩

/-- Scenario hero: tank, roam lane, magic damage, counters Layla. -/
def khufra : Hero := ⟨"khufra", ["tank"], ["roam"], ["magic"], ["layla"]⟩

/-- The scenario store. -/
def sampleStore : List Hero := [layla, estes, khufra]

/-! Theorems. -/

theorem firstDuplicate_eq_none_iff {α : Type} [DecidableEq α] (l : List α) :
    firstDuplicate l = none ↔ l.Nodup := by
  induction l with
  | nil => simp [firstDuplicate]
  | cons x xs ih =>
    by_cases hx : x ∈ xs
    · simp [firstDuplicate, hx]
    · simp [firstDuplicate, hx, ih]

theorem firstDuplicate_isSome_of_not_nodup {α : Type} [DecidableEq α]
    {l : List α} (h : ¬ l.Nodup) : ∃ x, firstDuplicate l = some x := by
  rcases ho : firstDuplicate l with _ | x
  · exact absurd ((firstDuplicate_eq_none_iff l).mp ho) h
  · exact ⟨x, rfl⟩

/-- C10: for every hero name, `addHeroToList` with list type `team`
leaves the banned, enemy, and team lists unchanged (it only emits a
toast message), so the recommendation panel's "+ Add to Team" button
never modifies the team. -/
theorem addHeroToList_team_frame (st : DraftUIState) (heroName : String) :
    (addHeroToList st heroName .team).banned = st.banned
    ∧ (addHeroToList st heroName .team).enemy = st.enemy
    ∧ (addHeroToList st heroName .team).team = st.team := by
  unfold addHeroToList
  split <;> simp

/-- C8: `removeHeroFromList` with list type `team` removes exactly the
team entries that start with the given hero name; consequently an entry
of which the removed hero's name is a prefix is removed as well. -/
theorem removeHeroFromList_team_spec (st : DraftUIState) (heroName : String) :
    (∀ e : String, e ∈ (removeHeroFromList st heroName .team).team ↔
        e ∈ st.team ∧ jsStartsWith e heroName = false)
    ∧ (∀ e : String, e ∈ st.team → jsStartsWith e heroName = true →
        e ∉ (removeHeroFromList st heroName .team).team) := by
  constructor
  · intro e
    simp [removeHeroFromList, List.mem_filter]
  · intro e he hs
    simp [removeHeroFromList, List.mem_filter, hs]

/-- C8 witness: "miya" is a prefix of the entry "miyagi-exp", so
removing "miya" from the team also removes "miyagi-exp". -/
theorem removeHeroFromList_team_spec_witness :
    jsStartsWith "miyagi-exp" "miya" = true
    ∧ "miyagi-exp" ∉ (removeHeroFromList
        ⟨[], [], ["miya-gold", "miyagi-exp"], "", []⟩ "miya" ListType.team).team :=
  ⟨by decide,
   (removeHeroFromList_team_spec
      ⟨[], [], ["miya-gold", "miyagi-exp"], "", []⟩ "miya").2
     "miyagi-exp" (by decide) (by decide)⟩

theorem splitOnChar_of_not_mem (c : Char) (xs : List Char) (h : c ∉ xs) :
    splitOnChar c xs = [xs] := by
  induction xs with
  | nil => rfl
  | cons a xs ih =>
    have hac : ¬ a = c := fun he => h (List.mem_cons.mpr (Or.inl he.symm))
    have hcx : c ∉ xs := fun hm => h (List.mem_cons_of_mem a hm)
    simp only [splitOnChar, if_neg hac, ih hcx]

theorem splitOnChar_append (c : Char) (xs ys : List Char) (h : c ∉ xs) :
    splitOnChar c (xs ++ c :: ys) = xs :: splitOnChar c ys := by
  induction xs with
  | nil => simp [splitOnChar]
  | cons a xs ih =>
    have hac : ¬ a = c := fun he => h (List.mem_cons.mpr (Or.inl he.symm))
    have hcx : c ∉ xs := fun hm => h (List.mem_cons_of_mem a hm)
    simp only [List.cons_append, splitOnChar, List.append_eq, if_neg hac, ih hcx]

/-- C9 counterexample: on the entry "x-born-gold" the implemented
`getHeroLane` returns "born" (the second '-'-separated field), not the
substring after the first '-', which would be "born-gold". -/
theorem getHeroLane_counterexample :
    getHeroLane ("x-born" ++ "-" ++ "gold") = "born"
    ∧ claimedLaneAfterFirstDash ("x-born" ++ "-" ++ "gold") = "born-gold"
    ∧ getHeroLane ("x-born" ++ "-" ++ "gold")
        ≠ claimedLaneAfterFirstDash ("x-born" ++ "-" ++ "gold") := by
  refine ⟨by decide, by decide, by decide⟩

/-- C9 (amended): team entries are encoded as `hero ++ "-" ++ lane`
(that is what `addHeroWithLane` appends), and `getHeroLane` returns the
second '-'-separated field of the entry (not everything after the first
'-'): for a hero name containing no hyphen, `getHeroLane` recovers the
assigned lane and the `split('-')[0]` decoding recovers the hero name,
while for a hero name containing a hyphen both decodings return proper
fragments of the name instead. -/
theorem teamEntry_decoding (hero lane : String) :
    (∀ st : DraftUIState,
      (addHeroWithLane st hero lane).team = st.team
      ∨ (addHeroWithLane st hero lane).team = st.team ++ [hero ++ "-" ++ lane])
    ∧ ('-' ∉ hero.data → '-' ∉ lane.data →
        getHeroLane (hero ++ "-" ++ lane) = lane
        ∧ getHeroName (hero ++ "-" ++ lane) = hero)
    ∧ (∀ xs ys : List Char, hero.data = xs ++ '-' :: ys →
        '-' ∉ xs → '-' ∉ ys → '-' ∉ lane.data →
        getHeroName (hero ++ "-" ++ lane) = String.mk xs
        ∧ getHeroLane (hero ++ "-" ++ lane) = String.mk ys
        ∧ String.mk xs ≠ hero ∧ String.mk ys ≠ hero) := by
  have hdata : (hero ++ "-" ++ lane).data = hero.data ++ '-' :: lane.data := by
    show (hero.data ++ ("-" : String).data) ++ lane.data = hero.data ++ '-' :: lane.data
    simp
  refine ⟨?_, ?_, ?_⟩
  · intro st
    unfold addHeroWithLane
    split_ifs <;> simp
  · intro hh hl
    have h1 : splitOnChar '-' (hero ++ "-" ++ lane).data
        = hero.data :: [lane.data] := by
      rw [hdata, splitOnChar_append '-' _ _ hh, splitOnChar_of_not_mem '-' _ hl]
    constructor
    · show getHeroLane _ = lane
      unfold getHeroLane
      rw [h1]
    · show getHeroName _ = hero
      unfold getHeroName
      rw [h1]
  · intro xs ys hxy hxs hys hl
    have hdata2 : (hero ++ "-" ++ lane).data
        = xs ++ '-' :: (ys ++ '-' :: lane.data) := by
      rw [hdata, hxy]
      simp
    have h1 : splitOnChar '-' (hero ++ "-" ++ lane).data
        = xs :: ys :: [lane.data] := by
      rw [hdata2, splitOnChar_append '-' _ _ hxs,
        splitOnChar_append '-' _ _ hys, splitOnChar_of_not_mem '-' _ hl]
    refine ⟨?_, ?_, ?_, ?_⟩
    · show getHeroName _ = String.mk xs
      unfold getHeroName
      rw [h1]
    · show getHeroLane _ = String.mk ys
      unfold getHeroLane
      rw [h1]
    · intro he
      have h2 : xs = xs ++ '-' :: ys := by
        simpa [hxy] using congrArg String.data he
      have h3 := congrArg List.length h2
      simp [List.length_append] at h3
    · intro he
      have h2 : ys = xs ++ '-' :: ys := by
        simpa [hxy] using congrArg String.data he
      have h3 := congrArg List.length h2
      simp [List.length_append] at h3
      omega

/-- C9 witness: for the hyphen-free name "miya" the decodings recover
hero and lane; for the hyphenated name "x-born" both decodings return
proper fragments of the name. -/
theorem teamEntry_decoding_witness :
    (getHeroLane ("miya" ++ "-" ++ "gold") = "gold"
      ∧ getHeroName ("miya" ++ "-" ++ "gold") = "miya")
    ∧ (getHeroName ("x-born" ++ "-" ++ "gold") = String.mk ['x']
      ∧ getHeroLane ("x-born" ++ "-" ++ "gold") = String.mk ['b', 'o', 'r', 'n']
      ∧ String.mk ['x'] ≠ "x-born"
      ∧ String.mk ['b', 'o', 'r', 'n'] ≠ "x-born") :=
  ⟨(teamEntry_decoding "miya" "gold").2.1 (by decide) (by decide),
   (teamEntry_decoding "x-born" "gold").2.2 ['x'] ['b', 'o', 'r', 'n']
     (by decide) (by decide) (by decide) (by decide)⟩

/-- C4: `analyze`'s `damage_balance` field is "balanced" iff `P ≥ 1`
and `M ≥ 1` (heroes dealing both damage types count toward both), and
otherwise is "physical_heavy" when `P > M` and "magic_heavy" when
`P ≤ M`. -/
theorem analyze_damage_balance (store : List Hero) (team : List (String × String)) :
    ((analyze store team).damage_balance = "balanced"
      ↔ 1 ≤ physicalCount store team ∧ 1 ≤ magicCount store team)
    ∧ (¬ (1 ≤ physicalCount store team ∧ 1 ≤ magicCount store team) →
        (magicCount store team < physicalCount store team →
          (analyze store team).damage_balance = "physical_heavy")
        ∧ (physicalCount store team ≤ magicCount store team →
          (analyze store team).damage_balance = "magic_heavy")) := by
  have hd : (analyze store team).damage_balance = damageBalance store team := rfl
  rw [hd]
  unfold damageBalance
  by_cases h1 : 1 ≤ physicalCount store team ∧ 1 ≤ magicCount store team
  · rw [if_pos h1]
    exact ⟨by simp [h1], fun hc => absurd h1 hc⟩
  · rw [if_neg h1]
    by_cases h2 : magicCount store team < physicalCount store team
    · rw [if_pos h2]
      refine ⟨⟨fun he => absurd he (by decide), fun hpm => absurd hpm h1⟩,
        fun _ => ⟨fun _ => rfl, fun hle => absurd h2 (not_lt.mpr hle)⟩⟩
    · rw [if_neg h2]
      refine ⟨⟨fun he => absurd he (by decide), fun hpm => absurd hpm h1⟩,
        fun _ => ⟨fun hlt => absurd hlt h2, fun _ => rfl⟩⟩

/-- C4 witness: a team of only Layla (physical marksman) is not
balanced and is reported "physical_heavy". -/
theorem analyze_damage_balance_witness :
    ¬ (1 ≤ physicalCount sampleStore [("layla", "gold")]
        ∧ 1 ≤ magicCount sampleStore [("layla", "gold")])
    ∧ (analyze sampleStore [("layla", "gold")]).damage_balance = "physical_heavy" :=
  ⟨by decide,
   ((analyze_damage_balance sampleStore [("layla", "gold")]).2 (by decide)).1
     (by decide)⟩

theorem find?_unknown_eq_none {store : List Hero} {inp : DraftInput}
    (hEx : ∀ n ∈ allNames inp, heroExists store n = true) :
    (allNames inp).find? (fun n => !(heroExists store n)) = none := by
  rw [List.find?_eq_none]
  intro n hn
  simp [hEx n hn]

theorem filter_beq_length_le_one {α : Type} [DecidableEq α] :
    ∀ l : List α, l.Nodup → ∀ a : α, (l.filter (fun x => x == a)).length ≤ 1 := by
  intro l
  induction l with
  | nil => intro _ a; simp
  | cons x xs ih =>
    intro hnd a
    rcases List.nodup_cons.mp hnd with ⟨hx, hxs⟩
    by_cases hxa : x = a
    · subst hxa
      have hfe : xs.filter (fun y => y == x) = [] := by
        rw [List.filter_eq_nil_iff]
        intro y hy
        simp only [beq_iff_eq]
        intro he
        exact hx (he ▸ hy)
      simp [List.filter_cons, hfe]
    · have hb : (x == a) = false := by simp [hxa]
      simp only [List.filter_cons, hb, Bool.false_eq_true, if_false]
      exact ih hxs a

/-- C7: for input whose hero names all resolve, a `user_lane` outside
the five lanes is rejected with `InvalidLane`; and every accepted Draft
State has `user_lane` among the five lanes. -/
theorem validate_user_lane (store : List Hero) (inp : DraftInput) :
    ((∀ n ∈ allNames inp, heroExists store n = true) →
      inp.user_lane ∉ LANES →
      validate store inp = .error (.InvalidLane inp.user_lane))
    ∧ (∀ st : DraftState, validate store inp = .ok st → st.user_lane ∈ LANES) := by
  constructor
  · intro hEx hLane
    unfold validate
    simp only [find?_unknown_eq_none hEx]
    rw [if_neg hLane]
  · intro st h
    unfold validate at h
    rcases hfind : (allNames inp).find? (fun n => !(heroExists store n)) with _ | n
    · simp only [hfind] at h
      split_ifs at h with hl
      · rcases hfd1 : firstDuplicate (allNames inp) with _ | n
        · simp only [hfd1] at h
          rcases hfd2 : firstDuplicate (inp.team.map Prod.snd) with _ | l
          · simp only [hfd2] at h
            cases h
            exact hl
          · simp only [hfd2] at h
            cases h
        · simp only [hfd1] at h
          cases h
    · simp only [hfind] at h
      cases h

/-- C7 witness: lane "top" is rejected with `InvalidLane`; the accepted
state with lane "roam" has its lane among the five lanes. -/
theorem validate_user_lane_witness :
    validate sampleStore ⟨[], [], [("layla", "gold")], "top"⟩
        = .error (.InvalidLane "top")
    ∧ (⟨[], [], [("layla", "gold")], "roam"⟩ : DraftState).user_lane ∈ LANES :=
  ⟨(validate_user_lane sampleStore ⟨[], [], [("layla", "gold")], "top"⟩).1
      (by decide) (by decide),
   (validate_user_lane sampleStore ⟨[], [], [("layla", "gold")], "roam"⟩).2
      ⟨[], [], [("layla", "gold")], "roam"⟩ (by rfl)⟩

/-- C6: for otherwise-valid input whose team assigns two heroes to the
same lane, validation rejects with `LaneAlreadyTaken`; and in every
accepted Draft State each lane is occupied by at most one hero. -/
theorem validate_lane_taken (store : List Hero) (inp : DraftInput) :
    ((∀ n ∈ allNames inp, heroExists store n = true) →
      inp.user_lane ∈ LANES →
      (allNames inp).Nodup →
      ¬ (inp.team.map Prod.snd).Nodup →
      ∃ l, validate store inp = .error (.LaneAlreadyTaken l))
    ∧ (∀ st : DraftState, validate store inp = .ok st →
        ∀ l : String, (st.team.filter (fun p => p.2 == l)).length ≤ 1) := by
  constructor
  · intro hEx hLane hNodup hLanes
    have hfd1 : firstDuplicate (allNames inp) = none :=
      (firstDuplicate_eq_none_iff _).mpr hNodup
    obtain ⟨l, hfd2⟩ := firstDuplicate_isSome_of_not_nodup hLanes
    refine ⟨l, ?_⟩
    unfold validate
    simp only [find?_unknown_eq_none hEx]
    rw [if_pos hLane]
    simp only [hfd1, hfd2]
  · intro st h l
    unfold validate at h
    rcases hfind : (allNames inp).find? (fun n => !(heroExists store n)) with _ | n
    · simp only [hfind] at h
      split_ifs at h with hl
      rcases hfd1 : firstDuplicate (allNames inp) with _ | n
      · simp only [hfd1] at h
        rcases hfd2 : firstDuplicate (inp.team.map Prod.snd) with _ | l2
        · simp only [hfd2] at h
          cases h
          have hnd : (inp.team.map Prod.snd).Nodup :=
            (firstDuplicate_eq_none_iff _).mp hfd2
          have hlen : ((inp.team.map Prod.snd).filter (fun x => x == l)).length
              = (inp.team.filter (fun p => p.2 == l)).length := by
            rw [List.filter_map, List.length_map]
            rfl
          have hle := filter_beq_length_le_one (inp.team.map Prod.snd) hnd l
          rw [hlen] at hle
          exact hle
        · simp only [hfd2] at h
          cases h
      · simp only [hfd1] at h
        cases h
    · simp only [hfind] at h
      cases h

/-- C6 witness: assigning Layla and Estes both to gold is rejected with
`LaneAlreadyTaken`; the accepted one-hero state occupies gold at most
once. -/
theorem validate_lane_taken_witness :
    (∃ l, validate sampleStore
        ⟨[], [], [("layla", "gold"), ("estes", "gold")], "roam"⟩
        = .error (.LaneAlreadyTaken l))
    ∧ ((⟨[], [], [("layla", "gold")], "roam"⟩ : DraftState).team.filter
        (fun p => p.2 == "gold")).length ≤ 1 :=
  ⟨(validate_lane_taken sampleStore
      ⟨[], [], [("layla", "gold"), ("estes", "gold")], "roam"⟩).1
      (by decide) (by decide) (by decide) (by decide),
   (validate_lane_taken sampleStore ⟨[], [], [("layla", "gold")], "roam"⟩).2
      ⟨[], [], [("layla", "gold")], "roam"⟩ (by rfl) "gold"⟩

/-- C5: for otherwise-valid input in which some hero name appears in
more than one of banned, enemy, and team (including the same hero twice
in the team under different lanes), validation rejects with
`DuplicateSelection` and the pipeline returns that error with no
partial analysis. -/
theorem validate_duplicate_selection (store : List Hero) (inp : DraftInput)
    (limit : Nat) :
    (∀ n ∈ allNames inp, heroExists store n = true) →
    inp.user_lane ∈ LANES →
    ¬ (allNames inp).Nodup →
    ∃ n, validate store inp = .error (.DuplicateSelection n)
      ∧ processDraft store inp limit = .error (.DuplicateSelection n) := by
  intro hEx hLane hDup
  obtain ⟨n, hfd⟩ := firstDuplicate_isSome_of_not_nodup hDup
  have hv : validate store inp = .error (.DuplicateSelection n) := by
    unfold validate
    simp only [find?_unknown_eq_none hEx]
    rw [if_pos hLane]
    simp only [hfd]
  refine ⟨n, hv, ?_⟩
  unfold processDraft
  simp only [hv]

/-- C5 witness: the team containing Layla twice under different lanes
is rejected with `DuplicateSelection` and the pipeline returns no
analysis. -/
theorem validate_duplicate_selection_witness :
    ∃ n, validate sampleStore
        ⟨[], [], [("layla", "gold"), ("layla", "mid")], "roam"⟩
        = .error (.DuplicateSelection n)
      ∧ processDraft sampleStore
        ⟨[], [], [("layla", "gold"), ("layla", "mid")], "roam"⟩ 10
        = .error (.DuplicateSelection n) :=
  validate_duplicate_selection sampleStore
    ⟨[], [], [("layla", "gold"), ("layla", "mid")], "roam"⟩ 10
    (by decide) (by decide) (by decide)

/-- C1: no hero of the recommendation list is banned, an enemy, or
already on a team lane (the filter selecting such heroes from the
output is empty), and the candidate set is exactly the store's heroes
minus those three sets. -/
theorem recommend_candidates_spec (store : List Hero) (s : DraftState)
    (limit : Nat) :
    ((recommend store s limit).filter (fun r =>
        s.banned.contains r.hero || s.enemy.contains r.hero
          || (s.team.map Prod.fst).contains r.hero) = [])
    ∧ (∀ h : Hero, h ∈ candidates store s ↔
        h ∈ store ∧ h.name ∉ s.banned ∧ h.name ∉ s.enemy
          ∧ h.name ∉ s.team.map Prod.fst) := by
  have hcand : ∀ h : Hero, h ∈ candidates store s ↔
      h ∈ store ∧ h.name ∉ s.banned ∧ h.name ∉ s.enemy
        ∧ h.name ∉ s.team.map Prod.fst := by
    intro h
    simp [candidates, List.mem_filter, List.elem_iff, not_or, and_assoc]
  refine ⟨?_, hcand⟩
  rw [List.filter_eq_nil_iff]
  intro r hr
  simp only [recommend] at hr
  have hr2 := List.take_subset _ _ hr
  simp only [List.mem_insertionSort] at hr2
  obtain ⟨h, hh, rfl⟩ := List.mem_map.mp hr2
  obtain ⟨_, hb, he, ht⟩ := (hcand h).mp hh
  simp [List.elem_iff, hb, he, ht]

/-- C2: the recommendation list is sorted by descending score with ties
broken by ascending hero name (`recBefore` holds pairwise along the
list), and re-running `recommend` on identical input returns the
identical ordered list. -/
theorem recommend_sorted_deterministic (store : List Hero) (s : DraftState)
    (limit : Nat) :
    List.Pairwise recBefore (recommend store s limit)
    ∧ recommend store s limit = recommend store s limit := by
  refine ⟨?_, rfl⟩
  simp only [recommend]
  exact List.Pairwise.sublist (List.take_sublist _ _)
    (List.sorted_insertionSort recBefore _)

/-- C3: an enemy whose threat list contains the candidate contributes
exactly +2.5 and the reason "Counters <enemy>": a candidate countering
one enemy scores exactly 5/2 more than an otherwise-identical candidate
(same roles, lanes, damage types) countering none, and it carries the
"Counters" reason for that enemy. -/
theorem counter_rule_value (s : DraftState) (a : TeamAnalysis)
    (th : List (String × List String)) (h1 h2 : Hero) (e : String)
    (hr : h1.roles = h2.roles) (hl : h1.lanes = h2.lanes)
    (hd : h1.damage_types = h2.damage_types)
    (hc1 : counterHits th h1 = [e]) (hc2 : counterHits th h2 = []) :
    (scoreHero s a th h1).1 = (scoreHero s a th h2).1 + 5 / 2
    ∧ "Counters " ++ e ∈ (scoreHero s a th h1).2 := by
  have e1 : laneFitRule s h1 = laneFitRule s h2 := by
    simp only [laneFitRule, hl]
  have e2 : roleGainRule a h1 = roleGainRule a h2 := by
    simp only [roleGainRule, newRoleCount, hr]
  have e3 : missingLaneRule a h1 = missingLaneRule a h2 := by
    simp only [missingLaneRule, hl]
  have e4 : damageBalanceRule a h1 = damageBalanceRule a h2 := by
    simp only [damageBalanceRule, hd]
  have e6 : jungleRoamRule s a h1 = jungleRoamRule s a h2 := by
    simp only [jungleRoamRule, hr]
  constructor
  · simp only [scoreHero, counterRule, hc1, hc2, e1, e2, e3, e4, e6,
      List.length_singleton, List.length_nil, Nat.cast_one, Nat.cast_zero]
    ring
  · simp [scoreHero, counterRule, hc1]

/-- C3 witness: against enemy Layla, the hero "alpha" (who counters
Layla) scores exactly 5/2 more than "beta", identical except for the
counter relation, and carries the reason "Counters layla". -/
theorem counter_rule_value_witness :
    (scoreHero ⟨[], ["layla"], [], "roam"⟩ (analyze sampleStore [])
        [("layla", ["alpha"])]
        ⟨"alpha", ["tank"], ["roam"], ["magic"], ["layla"]⟩).1
      = (scoreHero ⟨[], ["layla"], [], "roam"⟩ (analyze sampleStore [])
        [("layla", ["alpha"])]
        ⟨"beta", ["tank"], ["roam"], ["magic"], []⟩).1 + 5 / 2
    ∧ "Counters " ++ "layla" ∈ (scoreHero ⟨[], ["layla"], [], "roam"⟩
        (analyze sampleStore []) [("layla", ["alpha"])]
        ⟨"alpha", ["tank"], ["roam"], ["magic"], ["layla"]⟩).2 :=
  counter_rule_value ⟨[], ["layla"], [], "roam"⟩ (analyze sampleStore [])
    [("layla", ["alpha"])]
    ⟨"alpha", ["tank"], ["roam"], ["magic"], ["layla"]⟩
    ⟨"beta", ["tank"], ["roam"], ["magic"], []⟩ "layla"
    rfl rfl rfl (by decide) (by decide)

end MLDraft
